import Mathlib

/-!
Verification of the Vailed Vector container (vector.c / vector.h).

The container is a contiguous element buffer preceded by a hidden header
holding capacity, length, element size and an allocator reference.  We embed
a vector as a record `VecState` over a typed element list: `data` is the
storage block (`data.length = cap` storage cells), of which the first `len`
cells are the valid elements.  `tsize` carries the `element_size` header
field; in this typed embedding one list cell corresponds to one element of
`tsize` bytes, so a `memmove`/`memcpy` of `k * tsize` bytes is a copy of `k`
cells.  `aId` is the opaque allocator reference stored in the header.

Operations are state passing: each returns its C result paired with the
state of the block the caller holds after the call.  Allocation outcomes are
an explicit `Bool` parameter (`true` = the allocator returned memory); per
the C `realloc` contract a failed reallocation leaves the original block
untouched.  For the operations that hand the resized block back to the
caller, whether a successful reallocation moved the block is invisible at
the value level; `vector_push_all`, which keeps using the header pointer
captured before its reallocation, instead takes a `GrowOutcome` that
distinguishes an in-place grow from a relocating one.  Fresh storage cells produced by a grow are unspecified bytes in
the C source and are modelled as `default`.  Null-pointer argument checks of
the C functions are pointer-level and have no value-level content here: a
`VecState` always denotes a non-null vector.
-/

namespace VailedVector

/-- Header plus storage of one vector: `cap`, `len`, `tsize` and the
allocator reference mirror the four `VectorHeader` fields of vector.c;
`data` is the element storage block. -/
structure VecState (α : Type) where
  cap   : Nat
  len   : Nat
  tsize : Nat
  aId   : Nat
  data  : List α
deriving Repr, DecidableEq

/-- Well-formed vector: the documented representation invariants, plus
`0 < tsize` (in C, `sizeof` of any object type is at least 1). -/
def WF {α : Type} (s : VecState α) : Prop :=
  s.len ≤ s.cap ∧ s.data.length = s.cap ∧ 0 < s.tsize

instance {α : Type} (s : VecState α) : Decidable (WF s) :=
  inferInstanceAs (Decidable (s.len ≤ s.cap ∧ s.data.length = s.cap ∧ 0 < s.tsize))

/-- Semantics of `memcpy`/`memmove` into cells `[i, i + xs.length)` of a
storage block (the source cells are materialised in `xs`, so overlap is
already resolved, matching `memmove`). -/
def storeAt {α : Type} (data : List α) (i : Nat) (xs : List α) : List α :=
  data.take i ++ xs ++ data.drop (i + xs.length)

/-- vector.c `vector_init`: allocates header plus `tsize * cap` bytes and
writes `{cap, 0, tsize, a}` into the header.  `allocOk` is the outcome of
the allocator call. -/
def vector_init (α : Type) [Inhabited α] (tsize cap aId : Nat) (allocOk : Bool) :
    Option (VecState α) :=
  if allocOk then
    some { cap := cap, len := 0, tsize := tsize, aId := aId,
           data := List.replicate cap default }
  else none

/-- vector.c `vector_get_cap`: writes `cap` to the out parameter, returns 0. -/
def vector_get_cap {α : Type} (s : VecState α) : Nat × VecState α :=
  (s.cap, s)

/-- vector.c `vector_get_len`: writes `len` to the out parameter, returns 0. -/
def vector_get_len {α : Type} (s : VecState α) : Nat × VecState α :=
  (s.len, s)

/-- vector.c `vector_can_append`: returns `cap > len`. -/
def vector_can_append {α : Type} (s : VecState α) : Bool × VecState α :=
  (decide (s.cap > s.len), s)

/-- vector.c `vector_set_len`: `tmp->len = len; return 0;` with no bounds
check. -/
def vector_set_len {α : Type} (s : VecState α) (len : Nat) : Nat × VecState α :=
  (0, { s with len := len })

/-- vector.c `vector_resize` (lines 116-137): reallocates the block to
`cap * tsize + sizeof(VectorHeader)` bytes and sets `new_vector->cap = cap`.
`realloc` keeps the first `min(old, new)` bytes and on failure leaves the
original block untouched and returns NULL; this variant does not clamp
`len`.  `resizedBlock` is the relocated block after a successful
reallocation: the surviving bytes followed by fresh (unspecified, modelled
as `default`) cells. -/
def resizedBlock {α : Type} [Inhabited α] (s : VecState α) (cap : Nat) :
    VecState α :=
  { s with cap := cap,
           data := s.data.take cap ++ List.replicate (cap - s.data.length) default }

def vector_resize {α : Type} [Inhabited α] (s : VecState α) (cap : Nat)
    (allocOk : Bool) : Option (VecState α) × VecState α :=
  if allocOk then (some (resizedBlock s cap), resizedBlock s cap)
  else (none, s)

/-- vector.c `vector_pop_back` (lines 140-155): on empty returns NULL, else
decrements `len` and returns `vector + len * tsize`, i.e. the address of
cell `len - 1`; the returned pointer is represented by that cell index. -/
def vector_pop_back {α : Type} (s : VecState α) : Option Nat × VecState α :=
  if s.len = 0 then (none, s)
  else (some (s.len - 1), { s with len := s.len - 1 })

/-- vector.h (second variant, lines 391-407) `vector_pop_back`: on empty
returns VEC_EMPTY, else decrements `len` and copies `tsize` bytes from cell
`len - 1` to the out parameter; the result is the copied-out element. -/
def vector_pop_back_out {α : Type} (s : VecState α) : Option α × VecState α :=
  if s.len = 0 then (none, s)
  else (s.data[s.len - 1]?, { s with len := s.len - 1 })

/-- vector.c `vector_remove` (lines 157-182): bounds check, then when
`len > 1 && index != len - 1` a `memmove` of `(len - index - 1) * tsize`
bytes from cell `index + 1` to cell `index` (the entire tail), then
`len--`.  Returns 0 on success, 1 on out of bounds. -/
def vector_remove {α : Type} (s : VecState α) (index : Nat) : Nat × VecState α :=
  if index ≥ s.len then (1, s)
  else
    (0, { s with
          len := s.len - 1,
          data :=
            if s.len > 1 ∧ index ≠ s.len - 1 then
              storeAt s.data index ((s.data.drop (index + 1)).take (s.len - index - 1))
            else s.data })

/-- vector.c `vector_remove_ordered` (lines 184-208): bounds check, then
when `len > 1 && index != len - 1` a `memmove` of exactly `tsize` bytes
(one single cell) from cell `index + 1` to cell `index`, then `len--`. -/
def vector_remove_ordered {α : Type} (s : VecState α) (index : Nat) :
    Nat × VecState α :=
  if index ≥ s.len then (1, s)
  else
    (0, { s with
          len := s.len - 1,
          data :=
            if s.len > 1 ∧ index ≠ s.len - 1 then
              storeAt s.data index ((s.data.drop (index + 1)).take 1)
            else s.data })

/-- vector.c `vector_shrink_to_fit`: delegates to `vector_resize` with the
current length. -/
def vector_shrink_to_fit {α : Type} [Inhabited α] (s : VecState α)
    (allocOk : Bool) : Option (VecState α) × VecState α :=
  vector_resize s s.len allocOk

/-- vector.h (lines 732-760) `vector_normal_copy`: if `len * tsize == 0`
returns NULL, else allocates `len * tsize` bytes with the supplied function
and `memcpy`s the valid elements into the fresh header-less buffer. -/
def vector_normal_copy {α : Type} (s : VecState α) (allocOk : Bool) :
    Option (List α) × VecState α :=
  if s.len * s.tsize = 0 then (none, s)
  else if allocOk then (some (s.data.take s.len), s)
  else (none, s)

/-- vector.h (lines 42-65) `vector_push_back` macro: reads `_cap` and
`_len`, and when `can_append` is false resizes to `(_cap + 1) * 2`,
abandoning the push if the resize fails; then writes the item at `_len` and
sets the length to `_len + 1`.  The macro reassigns `v`, so the result is
the state of the block the caller holds afterwards. -/
def vector_push_back {α : Type} [Inhabited α] (s : VecState α) (item : α)
    (allocOk : Bool) : VecState α :=
  if s.cap > s.len then
    { s with data := s.data.set s.len item, len := s.len + 1 }
  else
    match (vector_resize s ((s.cap + 1) * 2) allocOk).1 with
    | none => s
    | some s2 => { s2 with data := s2.data.set s.len item, len := s.len + 1 }

/-- Outcome of the `realloc` performed by a growing `vector_push_all`:
the call can fail, extend the block at the same address, or relocate the
block to a new address (the usual case for a growing `realloc`, which
frees the old block after copying its bytes). -/
inductive GrowOutcome where
  | fail
  | samePlace
  | relocated
deriving Repr, DecidableEq

/-- vector.h (lines 763-789) `vector_push_all`: when `len + count > cap`,
grows once to `max(cap * 2, len + count)` (failing with 1 and no mutation
if the resize fails), then `memcpy`s `count * tsize` bytes from the source
to cell `hdr->len` of the block named by the local `vector`, and executes
`hdr->len += count`.  The C source is a contiguous buffer of at least
`count` elements, embedded as `src.take count`.

The function receives `vector` by value and returns an `int`, and `hdr` is
captured BEFORE the resize.  After a successful in-place grow, `hdr` still
addresses the live header, so the length update lands on the surviving
block.  After a relocating grow, the local `vector` is reassigned to the
new element area but `hdr` and the caller's pointer still address the freed
old block: the `memcpy` destination offset is read from the freed header
(which retains its old byte values) and `hdr->len += count` is written into
the freed header, so the surviving block keeps its old length, and the
caller is left holding the freed block.  The result is
`(status, state of the surviving allocated block, whether the caller's
pointer still addresses that block)`. -/
def vector_push_all {α : Type} [Inhabited α] (s : VecState α) (src : List α)
    (count : Nat) (grow : GrowOutcome) : Nat × VecState α × Bool :=
  if s.len + count > s.cap then
    match grow with
    | GrowOutcome.fail => (1, s, true)
    | GrowOutcome.samePlace =>
        (0,
         { resizedBlock s (if s.cap * 2 > s.len + count then s.cap * 2
                           else s.len + count) with
           data := storeAt
             (resizedBlock s (if s.cap * 2 > s.len + count then s.cap * 2
                              else s.len + count)).data
             s.len (src.take count),
           len := s.len + count },
         true)
    | GrowOutcome.relocated =>
        (0,
         { resizedBlock s (if s.cap * 2 > s.len + count then s.cap * 2
                           else s.len + count) with
           data := storeAt
             (resizedBlock s (if s.cap * 2 > s.len + count then s.cap * 2
                              else s.len + count)).data
             s.len (src.take count) },
         false)
  else
    (0, { s with data := storeAt s.data s.len (src.take count),
                 len := s.len + count },
     true)

/-- Reference behaviour for the spec sentence on `push_many`: repeating
`push_back` on each source element in order, with every allocation
succeeding. -/
def push_back_repeated {α : Type} [Inhabited α] (s : VecState α)
    (src : List α) : VecState α :=
  src.foldl (fun t x => vector_push_back t x true) s

/-! Helper lemmas about the `memcpy`/`memmove` semantics. -/

theorem length_storeAt {α : Type} (data : List α) (i : Nat) (xs : List α)
    (h : i + xs.length ≤ data.length) :
    (storeAt data i xs).length = data.length := by
  unfold storeAt
  rw [List.length_append, List.length_append, List.length_take, List.length_drop]
  omega

theorem take_storeAt_left {α : Type} (data : List α) (i : Nat) (xs : List α)
    (h : i ≤ data.length) :
    (storeAt data i xs).take i = data.take i := by
  unfold storeAt
  rw [List.append_assoc,
      List.take_append_of_le_length (by rw [List.length_take]; omega),
      List.take_take, Nat.min_self]

theorem take_storeAt {α : Type} (data : List α) (i : Nat) (xs : List α)
    (h : i + xs.length ≤ data.length) :
    (storeAt data i xs).take (i + xs.length) = data.take i ++ xs := by
  have h1 : (data.take i).length = i := by rw [List.length_take]; omega
  unfold storeAt
  rw [List.append_assoc, List.take_append_eq_append_take, h1,
      List.take_of_length_le (by rw [h1]; omega)]
  congr 1
  have h2 : i + xs.length - i = xs.length := by omega
  rw [h2, List.take_append_of_le_length (Nat.le_refl _), List.take_length]

theorem take_succ_set {α : Type} (l : List α) (n : Nat) (x : α)
    (h : n < l.length) :
    (l.set n x).take (n + 1) = l.take n ++ [x] := by
  induction l generalizing n with
  | nil => simp at h
  | cons a t ih =>
    cases n with
    | zero => simp
    | succ m =>
      have hm : m < t.length := by simpa using h
      simp [ih m hm]

/-- C4: for every well-formed vector and index `i < len`, `vector_remove`
(the variant documented as unordered) succeeds, decrements the length, and
its full tail shift makes the surviving valid elements exactly the original
element sequence with position `i` deleted, so relative order is preserved
and each surviving value is present exactly once. -/
theorem vector_remove_eraseIdx {α : Type} (s : VecState α) (i : Nat)
    (hWF : WF s) (hi : i < s.len) :
    (vector_remove s i).1 = 0 ∧
    (vector_remove s i).2.len = s.len - 1 ∧
    (vector_remove s i).2.data.take (s.len - 1) = (s.data.take s.len).eraseIdx i := by
  obtain ⟨hlc, hdl, hts⟩ := hWF
  unfold vector_remove
  rw [if_neg (show ¬ i ≥ s.len by omega)]
  refine ⟨rfl, rfl, ?_⟩
  dsimp only
  by_cases hc : s.len > 1 ∧ i ≠ s.len - 1
  · rw [if_pos hc]
    have hxlen : ((s.data.drop (i + 1)).take (s.len - i - 1)).length = s.len - i - 1 := by
      rw [List.length_take, List.length_drop]; omega
    have ht := take_storeAt s.data i ((s.data.drop (i + 1)).take (s.len - i - 1))
      (by rw [hxlen]; omega)
    rw [hxlen] at ht
    rw [show s.len - 1 = i + (s.len - i - 1) from by omega, ht,
        List.eraseIdx_eq_take_drop_succ, List.take_take,
        Nat.min_eq_left (by omega), List.drop_take]
    have h2 : s.len - (i + 1) = s.len - i - 1 := by omega
    rw [h2]
  · rw [if_neg hc]
    have hieq : i = s.len - 1 := by omega
    subst hieq
    rw [List.eraseIdx_eq_take_drop_succ, List.take_take,
        Nat.min_eq_left (by omega), List.drop_take]
    have h0 : s.len - (s.len - 1 + 1) = 0 := by omega
    rw [h0]
    simp

/-- C9: for every well-formed vector and index `i < len`, both
`vector_remove` and `vector_remove_ordered` succeed, leave the elements at
indices `[0, i)` unchanged, and leave capacity, element size and the
allocator reference unchanged: only cells at indices at least `i` and the
length field are written. -/
theorem remove_preserves_head_segment {α : Type} (s : VecState α) (i : Nat)
    (hWF : WF s) (hi : i < s.len) :
    (vector_remove s i).1 = 0 ∧
    (vector_remove_ordered s i).1 = 0 ∧
    (vector_remove s i).2.data.take i = s.data.take i ∧
    (vector_remove_ordered s i).2.data.take i = s.data.take i ∧
    (vector_remove s i).2.cap = s.cap ∧
    (vector_remove s i).2.tsize = s.tsize ∧
    (vector_remove s i).2.aId = s.aId ∧
    (vector_remove_ordered s i).2.cap = s.cap ∧
    (vector_remove_ordered s i).2.tsize = s.tsize ∧
    (vector_remove_ordered s i).2.aId = s.aId := by
  obtain ⟨hlc, hdl, hts⟩ := hWF
  have hge : ¬ i ≥ s.len := by omega
  unfold vector_remove vector_remove_ordered
  rw [if_neg hge, if_neg hge]
  dsimp only
  refine ⟨rfl, rfl, ?_, ?_, rfl, rfl, rfl, rfl, rfl, rfl⟩
  · by_cases hc : s.len > 1 ∧ i ≠ s.len - 1
    · rw [if_pos hc]
      exact take_storeAt_left _ _ _ (by omega)
    · rw [if_neg hc]
  · by_cases hc : s.len > 1 ∧ i ≠ s.len - 1
    · rw [if_pos hc]
      exact take_storeAt_left _ _ _ (by omega)
    · rw [if_neg hc]

/-- C1: `vector_remove_ordered` moves only one cell (`tsize` bytes) instead
of the whole tail, so on `[1, 2, 3, 4]` removing index 0 yields surviving
elements `[2, 2, 3]` instead of the order-preserving deletion `[2, 3, 4]`;
the spec's example `[5, 6, 7]` at index 1 happens to agree because only one
element follows the removed index. -/
theorem remove_ordered_single_cell_shift :
    (vector_remove_ordered (⟨4, 4, 1, 0, [1, 2, 3, 4]⟩ : VecState Nat) 0).1 = 0 ∧
    (vector_remove_ordered (⟨4, 4, 1, 0, [1, 2, 3, 4]⟩ : VecState Nat) 0).2.len = 3 ∧
    (vector_remove_ordered (⟨4, 4, 1, 0, [1, 2, 3, 4]⟩ : VecState Nat) 0).2.data.take 3
      = [2, 2, 3] ∧
    (([1, 2, 3, 4] : List Nat).eraseIdx 0 = [2, 3, 4]) ∧
    (([2, 2, 3] : List Nat) ≠ [2, 3, 4]) ∧
    (vector_remove_ordered (⟨3, 3, 1, 0, [5, 6, 7]⟩ : VecState Nat) 1).2.data.take 2
      = [5, 7] := by
  decide

/-- C6: on a well-formed vector with positive length, both pop variants
decrement the length by one and hand back the former last element (the
pointer variant returns the index of cell `len - 1`, the out-parameter
variant copies that cell out, and that cell holds the last valid element);
on a zero-length vector both signal the empty condition and leave the state,
in particular the length, unchanged. -/
theorem pop_back_lifo {α : Type} (s : VecState α) (hWF : WF s) :
    (0 < s.len →
      (vector_pop_back s).1 = some (s.len - 1) ∧
      (vector_pop_back s).2.len = s.len - 1 ∧
      (vector_pop_back_out s).1 = s.data[s.len - 1]? ∧
      (vector_pop_back_out s).1 = (s.data.take s.len).getLast? ∧
      (vector_pop_back_out s).2.len = s.len - 1) ∧
    (s.len = 0 → vector_pop_back s = (none, s) ∧ vector_pop_back_out s = (none, s)) := by
  obtain ⟨hlc, hdl, hts⟩ := hWF
  constructor
  · intro hpos
    have hne : ¬ s.len = 0 := by omega
    unfold vector_pop_back vector_pop_back_out
    rw [if_neg hne, if_neg hne]
    refine ⟨rfl, rfl, rfl, ?_, rfl⟩
    rw [List.getLast?_eq_getElem?, List.length_take, Nat.min_eq_left (by omega),
        List.getElem?_take_of_lt (by omega)]
  · intro h0
    unfold vector_pop_back vector_pop_back_out
    rw [if_pos h0, if_pos h0]
    exact ⟨rfl, rfl⟩

/-- C10: on a vector with positive length, `vector_pop_back` mutates only
the header's length field: the storage block and the other header fields
are byte-for-byte unchanged, and the returned pointer is the address of
cell `new length` inside the vector's own buffer, where the popped value is
still readable. -/
theorem pop_back_touches_only_length {α : Type} (s : VecState α)
    (h : 0 < s.len) :
    (vector_pop_back s).1 = some (s.len - 1) ∧
    (vector_pop_back s).2.len = s.len - 1 ∧
    (vector_pop_back s).2.data = s.data ∧
    (vector_pop_back s).2.cap = s.cap ∧
    (vector_pop_back s).2.tsize = s.tsize ∧
    (vector_pop_back s).2.aId = s.aId ∧
    (vector_pop_back s).2.data[(vector_pop_back s).2.len]? = s.data[s.len - 1]? := by
  have hne : ¬ s.len = 0 := by omega
  unfold vector_pop_back
  rw [if_neg hne]
  exact ⟨rfl, rfl, rfl, rfl, rfl, rfl, rfl⟩

/-- C5: when `push_back` is invoked with `length = capacity` (so
`can_append` reports false), it grows the capacity to `(capacity + 1) * 2`;
if the reallocation fails the push is abandoned and the vector is left
completely unchanged: same length, same capacity, same element storage. -/
theorem push_back_growth_policy {α : Type} [Inhabited α] (s : VecState α)
    (x : α) (h : s.len = s.cap) :
    (vector_can_append s).1 = false ∧
    vector_push_back s x false = s ∧
    (vector_push_back s x false).len = s.len ∧
    (vector_push_back s x false).cap = s.cap ∧
    (vector_push_back s x false).data = s.data ∧
    (vector_push_back s x true).cap = (s.cap + 1) * 2 := by
  have hng : ¬ s.cap > s.len := by omega
  refine ⟨?_, ?_, ?_, ?_, ?_, ?_⟩ <;>
    simp [vector_can_append, vector_push_back, vector_resize, resizedBlock, hng]

/-- C7: when the allocator's reallocate returns no memory, `vector_resize`
returns NULL and the caller's block is exactly as before the call:
capacity, length, element size, allocator reference and every storage cell
are unchanged. -/
theorem resize_failure_leaves_state {α : Type} [Inhabited α] (s : VecState α)
    (c : Nat) :
    (vector_resize s c false).1 = none ∧
    (vector_resize s c false).2 = s ∧
    (vector_resize s c false).2.cap = s.cap ∧
    (vector_resize s c false).2.len = s.len ∧
    (vector_resize s c false).2.tsize = s.tsize ∧
    (vector_resize s c false).2.aId = s.aId ∧
    (vector_resize s c false).2.data = s.data := by
  unfold vector_resize
  simp

/-- C8: on a well-formed vector, `vector_normal_copy` returns the
empty/failure result when the length is zero; otherwise, when the
allocation succeeds, it returns a fresh header-less buffer holding exactly
the valid elements, and in every case the vector itself is unmodified. -/
theorem normal_copy_spec {α : Type} (s : VecState α) (ok : Bool)
    (hWF : WF s) :
    (s.len = 0 → vector_normal_copy s ok = (none, s)) ∧
    (0 < s.len →
      (vector_normal_copy s true).1 = some (s.data.take s.len) ∧
      (vector_normal_copy s true).2 = s ∧
      (vector_normal_copy s ok).2 = s) := by
  obtain ⟨hlc, hdl, hts⟩ := hWF
  constructor
  · intro h0
    unfold vector_normal_copy
    rw [if_pos (by simp [h0])]
  · intro hpos
    have hne : s.len * s.tsize ≠ 0 :=
      Nat.mul_ne_zero (by omega) (by omega)
    refine ⟨?_, ?_, ?_⟩
    · unfold vector_normal_copy
      rw [if_neg hne]
      simp
    · unfold vector_normal_copy
      rw [if_neg hne]
      simp
    · unfold vector_normal_copy
      rw [if_neg hne]
      cases ok <;> simp

theorem resize_true {α : Type} [Inhabited α] (s : VecState α) (c : Nat) :
    vector_resize s c true = (some (resizedBlock s c), resizedBlock s c) := by
  simp [vector_resize]

theorem push_back_step {α : Type} [Inhabited α] (s : VecState α) (x : α)
    (hWF : WF s) :
    (vector_push_back s x true).len = s.len + 1 ∧
    (vector_push_back s x true).data.take (s.len + 1) = s.data.take s.len ++ [x] ∧
    WF (vector_push_back s x true) := by
  obtain ⟨hlc, hdl, hts⟩ := hWF
  by_cases hcan : s.cap > s.len
  · unfold vector_push_back
    rw [if_pos hcan]
    refine ⟨rfl, ?_, ?_, ?_, ?_⟩
    · exact take_succ_set _ _ _ (by omega)
    · show s.len + 1 ≤ s.cap
      omega
    · show (s.data.set s.len x).length = s.cap
      rw [List.length_set]; omega
    · exact hts
  · have hcap : s.len = s.cap := by omega
    unfold vector_push_back
    rw [if_neg hcan, resize_true]
    dsimp only [resizedBlock]
    have hlen2 : (s.data.take ((s.cap + 1) * 2) ++
        List.replicate ((s.cap + 1) * 2 - s.data.length) default).length
        = (s.cap + 1) * 2 := by
      rw [List.length_append, List.length_take, List.length_replicate]; omega
    refine ⟨rfl, ?_, ?_, ?_, ?_⟩
    · rw [take_succ_set _ _ _ (by rw [hlen2]; omega)]
      congr 1
      rw [List.take_append_of_le_length (by rw [List.length_take]; omega),
          List.take_take, Nat.min_eq_left (by omega)]
    · show s.len + 1 ≤ (s.cap + 1) * 2
      omega
    · show (List.set _ s.len x).length = (s.cap + 1) * 2
      rw [List.length_set, hlen2]
    · exact hts

theorem push_back_repeated_spec {α : Type} [Inhabited α] (src : List α) :
    ∀ s : VecState α, WF s →
      (push_back_repeated s src).len = s.len + src.length ∧
      (push_back_repeated s src).data.take (s.len + src.length)
        = s.data.take s.len ++ src ∧
      WF (push_back_repeated s src) := by
  induction src with
  | nil =>
    intro s h
    refine ⟨by simp [push_back_repeated], by simp [push_back_repeated], h⟩
  | cons x rest ih =>
    intro s hs
    obtain ⟨h1, h2, h3⟩ := push_back_step s x hs
    obtain ⟨r1, r2, r3⟩ := ih (vector_push_back s x true) h3
    have hfold : push_back_repeated s (x :: rest)
        = push_back_repeated (vector_push_back s x true) rest := rfl
    refine ⟨?_, ?_, ?_⟩
    · rw [hfold, r1, h1]
      simp [Nat.add_assoc, Nat.add_comm 1 rest.length]
    · rw [hfold]
      have hn : s.len + (x :: rest).length
          = (vector_push_back s x true).len + rest.length := by
        rw [h1]; simp; omega
      rw [hn, r2, h1, h2, List.append_assoc, List.singleton_append]
    · rw [hfold]; exact r3

/-- Supporting result: on the paths where the C code's captured header
pointer stays valid — no grow needed, or a grow whose reallocation extends
the block in place — `vector_push_all` appends the `count` source elements:
it returns 0, the caller still holds the surviving block, its new length is
the old length plus `count`, the earlier elements are unchanged, the cells
at `[len, len + count)` hold the source elements in order, and repeating
`vector_push_back` on each of the `count` source elements in order yields
exactly the same length and the same valid element sequence. -/
theorem push_all_refines_repeated_push {α : Type} [Inhabited α]
    (s : VecState α) (src : List α) (count : Nat)
    (hWF : WF s) (hcount : count ≤ src.length) :
    (vector_push_all s src count GrowOutcome.samePlace).1 = 0 ∧
    (vector_push_all s src count GrowOutcome.samePlace).2.2 = true ∧
    (vector_push_all s src count GrowOutcome.samePlace).2.1.len = s.len + count ∧
    (vector_push_all s src count GrowOutcome.samePlace).2.1.data.take s.len
      = s.data.take s.len ∧
    (vector_push_all s src count GrowOutcome.samePlace).2.1.data.take (s.len + count)
      = s.data.take s.len ++ src.take count ∧
    (push_back_repeated s (src.take count)).len = s.len + count ∧
    (push_back_repeated s (src.take count)).data.take (s.len + count)
      = s.data.take s.len ++ src.take count := by
  obtain ⟨hlc, hdl, hts⟩ := hWF
  have htc : (src.take count).length = count := by
    rw [List.length_take]; omega
  obtain ⟨p1, p2, p3⟩ := push_back_repeated_spec (src.take count) s ⟨hlc, hdl, hts⟩
  rw [htc] at p1 p2
  by_cases hover : s.len + count > s.cap
  · unfold vector_push_all
    rw [if_pos hover]
    dsimp only [resizedBlock]
    have hc2 : s.len + count
        ≤ (if s.cap * 2 > s.len + count then s.cap * 2 else s.len + count) := by
      by_cases hbig : s.cap * 2 > s.len + count
      · rw [if_pos hbig]; omega
      · rw [if_neg hbig]
    have hdl2 : (s.data.take
          (if s.cap * 2 > s.len + count then s.cap * 2 else s.len + count) ++
        List.replicate
          ((if s.cap * 2 > s.len + count then s.cap * 2 else s.len + count)
            - s.data.length) default).length
        = (if s.cap * 2 > s.len + count then s.cap * 2 else s.len + count) := by
      rw [List.length_append, List.length_take, List.length_replicate]; omega
    refine ⟨rfl, rfl, rfl, ?_, ?_, p1, p2⟩
    · rw [take_storeAt_left _ _ _ (by rw [hdl2]; omega)]
      rw [List.take_append_of_le_length (by rw [List.length_take]; omega),
          List.take_take, Nat.min_eq_left (by omega)]
    · have hst := take_storeAt
        (s.data.take
          (if s.cap * 2 > s.len + count then s.cap * 2 else s.len + count) ++
         List.replicate
          ((if s.cap * 2 > s.len + count then s.cap * 2 else s.len + count)
            - s.data.length) default)
        s.len (src.take count) (by rw [htc, hdl2]; omega)
      rw [htc] at hst
      rw [hst]
      congr 1
      rw [List.take_append_of_le_length (by rw [List.length_take]; omega),
          List.take_take, Nat.min_eq_left (by omega)]
  · unfold vector_push_all
    rw [if_neg hover]
    refine ⟨rfl, rfl, rfl, ?_, ?_, p1, p2⟩
    · exact take_storeAt_left _ _ _ (by omega)
    · have hst := take_storeAt s.data s.len (src.take count) (by rw [htc]; omega)
      rw [htc] at hst
      rw [hst]

/-- C2 (amended): `length ≤ capacity` is established by `vector_init` and
preserved by `push_back`, both pop variants, both remove variants,
`push_all` (for the surviving allocated block, under every reallocation
outcome), `shrink_to_fit`, `normal_copy` and the queries, whatever the
allocation outcome; it is preserved by `vector_resize` when the new
capacity is at least the length, and by `vector_set_len` when the new
length is at most the capacity.  (Unchecked `set_len`, and this resize
variant when shrinking below the length, can violate it.) -/
theorem length_le_capacity_preserved {α : Type} [Inhabited α]
    (s s0 : VecState α) (x : α) (src : List α)
    (i count c ts aid n : Nat) (ok : Bool) (grow : GrowOutcome)
    (hle : s.len ≤ s.cap) :
    (vector_init α ts c aid ok = some s0 → s0.len ≤ s0.cap) ∧
    (vector_push_back s x ok).len ≤ (vector_push_back s x ok).cap ∧
    (vector_pop_back s).2.len ≤ (vector_pop_back s).2.cap ∧
    (vector_pop_back_out s).2.len ≤ (vector_pop_back_out s).2.cap ∧
    (vector_remove s i).2.len ≤ (vector_remove s i).2.cap ∧
    (vector_remove_ordered s i).2.len ≤ (vector_remove_ordered s i).2.cap ∧
    (vector_push_all s src count grow).2.1.len
      ≤ (vector_push_all s src count grow).2.1.cap ∧
    (s.len ≤ c → (vector_resize s c ok).2.len ≤ (vector_resize s c ok).2.cap) ∧
    (vector_shrink_to_fit s ok).2.len ≤ (vector_shrink_to_fit s ok).2.cap ∧
    (vector_normal_copy s ok).2.len ≤ (vector_normal_copy s ok).2.cap ∧
    (vector_get_len s).2.len ≤ (vector_get_len s).2.cap ∧
    (vector_get_cap s).2.len ≤ (vector_get_cap s).2.cap ∧
    (vector_can_append s).2.len ≤ (vector_can_append s).2.cap ∧
    (n ≤ s.cap → (vector_set_len s n).2.len ≤ (vector_set_len s n).2.cap) := by
  refine ⟨?_, ?_, ?_, ?_, ?_, ?_, ?_, ?_, ?_, ?_, hle, hle, hle, ?_⟩
  · intro h
    cases ok with
    | false => simp [vector_init] at h
    | true =>
      simp [vector_init] at h
      rw [← h]
      simp
  · by_cases hcan : s.cap > s.len
    · simp [vector_push_back, hcan]
      omega
    · cases ok with
      | false =>
        simp [vector_push_back, hcan, vector_resize]
        exact hle
      | true =>
        simp [vector_push_back, hcan, vector_resize, resizedBlock]
        omega
  · by_cases h0 : s.len = 0 <;> simp [vector_pop_back, h0]; omega
  · by_cases h0 : s.len = 0 <;> simp [vector_pop_back_out, h0]; omega
  · by_cases hb : i ≥ s.len <;> simp [vector_remove, hb] <;> omega
  · by_cases hb : i ≥ s.len <;> simp [vector_remove_ordered, hb] <;> omega
  · by_cases hover : s.len + count > s.cap
    · cases grow with
      | fail =>
        simp [vector_push_all, hover]
        exact hle
      | samePlace =>
        by_cases hbig : s.cap * 2 > s.len + count <;>
          simp [vector_push_all, hover, resizedBlock, hbig];
          omega
      | relocated =>
        by_cases hbig : s.cap * 2 > s.len + count <;>
          simp [vector_push_all, hover, resizedBlock, hbig];
          omega
    · simp [vector_push_all, hover]
      omega
  · intro hsc
    cases ok <;> simp [vector_resize, resizedBlock] <;> omega
  · unfold vector_shrink_to_fit
    cases ok <;> simp [vector_resize, resizedBlock]; omega
  · unfold vector_normal_copy
    by_cases hz : s.len * s.tsize = 0
    · simp [hz]; exact hle
    · cases ok <;> simp [hz] <;> exact hle
  · intro h
    exact h

/-- C2 counterexample: starting from `vector_init` with capacity 2 and
pushing two elements reaches a full well-formed vector; `vector_set_len`
then accepts a new length of 5 (returns 0) and leaves the vector with
`length = 5 > capacity = 2`, so `length ≤ capacity` does not hold after
every accepted public operation. -/
theorem set_len_violates_invariant :
    (vector_set_len
        (vector_push_back
          (vector_push_back ((vector_init Nat 8 2 0 true).getD ⟨0, 0, 1, 0, []⟩) 5 true)
          6 true)
        5).1 = 0 ∧
    ¬ ((vector_set_len
        (vector_push_back
          (vector_push_back ((vector_init Nat 8 2 0 true).getD ⟨0, 0, 1, 0, []⟩) 5 true)
          6 true)
        5).2.len ≤
       (vector_set_len
        (vector_push_back
          (vector_push_back ((vector_init Nat 8 2 0 true).getD ⟨0, 0, 1, 0, []⟩) 5 true)
          6 true)
        5).2.cap) := by
  decide

theorem vector_remove_eraseIdx_witness :
    (WF (⟨3, 3, 4, 0, [1, 2, 3]⟩ : VecState Nat) ∧
     1 < (⟨3, 3, 4, 0, [1, 2, 3]⟩ : VecState Nat).len) ∧
    ((vector_remove (⟨3, 3, 4, 0, [1, 2, 3]⟩ : VecState Nat) 1).1 = 0 ∧
     (vector_remove (⟨3, 3, 4, 0, [1, 2, 3]⟩ : VecState Nat) 1).2.len
       = (⟨3, 3, 4, 0, [1, 2, 3]⟩ : VecState Nat).len - 1 ∧
     (vector_remove (⟨3, 3, 4, 0, [1, 2, 3]⟩ : VecState Nat) 1).2.data.take
         ((⟨3, 3, 4, 0, [1, 2, 3]⟩ : VecState Nat).len - 1)
       = ((⟨3, 3, 4, 0, [1, 2, 3]⟩ : VecState Nat).data.take
           (⟨3, 3, 4, 0, [1, 2, 3]⟩ : VecState Nat).len).eraseIdx 1) :=
  ⟨⟨by decide, by decide⟩,
   vector_remove_eraseIdx (⟨3, 3, 4, 0, [1, 2, 3]⟩ : VecState Nat) 1
     (by decide) (by decide)⟩

theorem remove_preserves_head_segment_witness :
    (WF (⟨4, 3, 2, 0, [7, 8, 9, 0]⟩ : VecState Nat) ∧
     1 < (⟨4, 3, 2, 0, [7, 8, 9, 0]⟩ : VecState Nat).len) ∧
    ((vector_remove (⟨4, 3, 2, 0, [7, 8, 9, 0]⟩ : VecState Nat) 1).1 = 0 ∧
     (vector_remove_ordered (⟨4, 3, 2, 0, [7, 8, 9, 0]⟩ : VecState Nat) 1).1 = 0 ∧
     (vector_remove (⟨4, 3, 2, 0, [7, 8, 9, 0]⟩ : VecState Nat) 1).2.data.take 1
       = (⟨4, 3, 2, 0, [7, 8, 9, 0]⟩ : VecState Nat).data.take 1 ∧
     (vector_remove_ordered (⟨4, 3, 2, 0, [7, 8, 9, 0]⟩ : VecState Nat) 1).2.data.take 1
       = (⟨4, 3, 2, 0, [7, 8, 9, 0]⟩ : VecState Nat).data.take 1 ∧
     (vector_remove (⟨4, 3, 2, 0, [7, 8, 9, 0]⟩ : VecState Nat) 1).2.cap
       = (⟨4, 3, 2, 0, [7, 8, 9, 0]⟩ : VecState Nat).cap ∧
     (vector_remove (⟨4, 3, 2, 0, [7, 8, 9, 0]⟩ : VecState Nat) 1).2.tsize
       = (⟨4, 3, 2, 0, [7, 8, 9, 0]⟩ : VecState Nat).tsize ∧
     (vector_remove (⟨4, 3, 2, 0, [7, 8, 9, 0]⟩ : VecState Nat) 1).2.aId
       = (⟨4, 3, 2, 0, [7, 8, 9, 0]⟩ : VecState Nat).aId ∧
     (vector_remove_ordered (⟨4, 3, 2, 0, [7, 8, 9, 0]⟩ : VecState Nat) 1).2.cap
       = (⟨4, 3, 2, 0, [7, 8, 9, 0]⟩ : VecState Nat).cap ∧
     (vector_remove_ordered (⟨4, 3, 2, 0, [7, 8, 9, 0]⟩ : VecState Nat) 1).2.tsize
       = (⟨4, 3, 2, 0, [7, 8, 9, 0]⟩ : VecState Nat).tsize ∧
     (vector_remove_ordered (⟨4, 3, 2, 0, [7, 8, 9, 0]⟩ : VecState Nat) 1).2.aId
       = (⟨4, 3, 2, 0, [7, 8, 9, 0]⟩ : VecState Nat).aId) :=
  ⟨⟨by decide, by decide⟩,
   remove_preserves_head_segment (⟨4, 3, 2, 0, [7, 8, 9, 0]⟩ : VecState Nat) 1
     (by decide) (by decide)⟩

theorem pop_back_lifo_witness :
    WF (⟨3, 3, 8, 0, [100, 200, 300]⟩ : VecState Nat) ∧
    ((0 < (⟨3, 3, 8, 0, [100, 200, 300]⟩ : VecState Nat).len →
      (vector_pop_back (⟨3, 3, 8, 0, [100, 200, 300]⟩ : VecState Nat)).1
        = some ((⟨3, 3, 8, 0, [100, 200, 300]⟩ : VecState Nat).len - 1) ∧
      (vector_pop_back (⟨3, 3, 8, 0, [100, 200, 300]⟩ : VecState Nat)).2.len
        = (⟨3, 3, 8, 0, [100, 200, 300]⟩ : VecState Nat).len - 1 ∧
      (vector_pop_back_out (⟨3, 3, 8, 0, [100, 200, 300]⟩ : VecState Nat)).1
        = (⟨3, 3, 8, 0, [100, 200, 300]⟩ : VecState Nat).data[
            (⟨3, 3, 8, 0, [100, 200, 300]⟩ : VecState Nat).len - 1]? ∧
      (vector_pop_back_out (⟨3, 3, 8, 0, [100, 200, 300]⟩ : VecState Nat)).1
        = ((⟨3, 3, 8, 0, [100, 200, 300]⟩ : VecState Nat).data.take
            (⟨3, 3, 8, 0, [100, 200, 300]⟩ : VecState Nat).len).getLast? ∧
      (vector_pop_back_out (⟨3, 3, 8, 0, [100, 200, 300]⟩ : VecState Nat)).2.len
        = (⟨3, 3, 8, 0, [100, 200, 300]⟩ : VecState Nat).len - 1) ∧
     ((⟨3, 3, 8, 0, [100, 200, 300]⟩ : VecState Nat).len = 0 →
      vector_pop_back (⟨3, 3, 8, 0, [100, 200, 300]⟩ : VecState Nat)
        = (none, (⟨3, 3, 8, 0, [100, 200, 300]⟩ : VecState Nat)) ∧
      vector_pop_back_out (⟨3, 3, 8, 0, [100, 200, 300]⟩ : VecState Nat)
        = (none, (⟨3, 3, 8, 0, [100, 200, 300]⟩ : VecState Nat)))) :=
  ⟨by decide, pop_back_lifo (⟨3, 3, 8, 0, [100, 200, 300]⟩ : VecState Nat) (by decide)⟩

theorem pop_back_touches_only_length_witness :
    0 < (⟨2, 2, 4, 1, [10, 20]⟩ : VecState Nat).len ∧
    ((vector_pop_back (⟨2, 2, 4, 1, [10, 20]⟩ : VecState Nat)).1
       = some ((⟨2, 2, 4, 1, [10, 20]⟩ : VecState Nat).len - 1) ∧
     (vector_pop_back (⟨2, 2, 4, 1, [10, 20]⟩ : VecState Nat)).2.len
       = (⟨2, 2, 4, 1, [10, 20]⟩ : VecState Nat).len - 1 ∧
     (vector_pop_back (⟨2, 2, 4, 1, [10, 20]⟩ : VecState Nat)).2.data
       = (⟨2, 2, 4, 1, [10, 20]⟩ : VecState Nat).data ∧
     (vector_pop_back (⟨2, 2, 4, 1, [10, 20]⟩ : VecState Nat)).2.cap
       = (⟨2, 2, 4, 1, [10, 20]⟩ : VecState Nat).cap ∧
     (vector_pop_back (⟨2, 2, 4, 1, [10, 20]⟩ : VecState Nat)).2.tsize
       = (⟨2, 2, 4, 1, [10, 20]⟩ : VecState Nat).tsize ∧
     (vector_pop_back (⟨2, 2, 4, 1, [10, 20]⟩ : VecState Nat)).2.aId
       = (⟨2, 2, 4, 1, [10, 20]⟩ : VecState Nat).aId ∧
     (vector_pop_back (⟨2, 2, 4, 1, [10, 20]⟩ : VecState Nat)).2.data[
         (vector_pop_back (⟨2, 2, 4, 1, [10, 20]⟩ : VecState Nat)).2.len]?
       = (⟨2, 2, 4, 1, [10, 20]⟩ : VecState Nat).data[
           (⟨2, 2, 4, 1, [10, 20]⟩ : VecState Nat).len - 1]?) :=
  ⟨by decide,
   pop_back_touches_only_length (⟨2, 2, 4, 1, [10, 20]⟩ : VecState Nat) (by decide)⟩

theorem push_back_growth_policy_witness :
    (⟨2, 2, 4, 0, [1, 2]⟩ : VecState Nat).len
      = (⟨2, 2, 4, 0, [1, 2]⟩ : VecState Nat).cap ∧
    ((vector_can_append (⟨2, 2, 4, 0, [1, 2]⟩ : VecState Nat)).1 = false ∧
     vector_push_back (⟨2, 2, 4, 0, [1, 2]⟩ : VecState Nat) 9 false
       = (⟨2, 2, 4, 0, [1, 2]⟩ : VecState Nat) ∧
     (vector_push_back (⟨2, 2, 4, 0, [1, 2]⟩ : VecState Nat) 9 false).len
       = (⟨2, 2, 4, 0, [1, 2]⟩ : VecState Nat).len ∧
     (vector_push_back (⟨2, 2, 4, 0, [1, 2]⟩ : VecState Nat) 9 false).cap
       = (⟨2, 2, 4, 0, [1, 2]⟩ : VecState Nat).cap ∧
     (vector_push_back (⟨2, 2, 4, 0, [1, 2]⟩ : VecState Nat) 9 false).data
       = (⟨2, 2, 4, 0, [1, 2]⟩ : VecState Nat).data ∧
     (vector_push_back (⟨2, 2, 4, 0, [1, 2]⟩ : VecState Nat) 9 true).cap
       = ((⟨2, 2, 4, 0, [1, 2]⟩ : VecState Nat).cap + 1) * 2) :=
  ⟨by decide,
   push_back_growth_policy (⟨2, 2, 4, 0, [1, 2]⟩ : VecState Nat) 9 (by decide)⟩

theorem normal_copy_spec_witness :
    WF (⟨3, 2, 4, 0, [4, 5, 0]⟩ : VecState Nat) ∧
    (((⟨3, 2, 4, 0, [4, 5, 0]⟩ : VecState Nat).len = 0 →
       vector_normal_copy (⟨3, 2, 4, 0, [4, 5, 0]⟩ : VecState Nat) true
         = (none, (⟨3, 2, 4, 0, [4, 5, 0]⟩ : VecState Nat))) ∧
     (0 < (⟨3, 2, 4, 0, [4, 5, 0]⟩ : VecState Nat).len →
       (vector_normal_copy (⟨3, 2, 4, 0, [4, 5, 0]⟩ : VecState Nat) true).1
         = some ((⟨3, 2, 4, 0, [4, 5, 0]⟩ : VecState Nat).data.take
             (⟨3, 2, 4, 0, [4, 5, 0]⟩ : VecState Nat).len) ∧
       (vector_normal_copy (⟨3, 2, 4, 0, [4, 5, 0]⟩ : VecState Nat) true).2
         = (⟨3, 2, 4, 0, [4, 5, 0]⟩ : VecState Nat) ∧
       (vector_normal_copy (⟨3, 2, 4, 0, [4, 5, 0]⟩ : VecState Nat) true).2
         = (⟨3, 2, 4, 0, [4, 5, 0]⟩ : VecState Nat))) :=
  ⟨by decide,
   normal_copy_spec (⟨3, 2, 4, 0, [4, 5, 0]⟩ : VecState Nat) true (by decide)⟩

theorem push_all_refines_repeated_push_witness :
    (WF (⟨2, 1, 4, 0, [10, 0]⟩ : VecState Nat) ∧
     3 ≤ ([20, 30, 40] : List Nat).length) ∧
    ((vector_push_all (⟨2, 1, 4, 0, [10, 0]⟩ : VecState Nat) [20, 30, 40] 3
        GrowOutcome.samePlace).1 = 0 ∧
     (vector_push_all (⟨2, 1, 4, 0, [10, 0]⟩ : VecState Nat) [20, 30, 40] 3
        GrowOutcome.samePlace).2.2 = true ∧
     (vector_push_all (⟨2, 1, 4, 0, [10, 0]⟩ : VecState Nat) [20, 30, 40] 3
        GrowOutcome.samePlace).2.1.len
       = (⟨2, 1, 4, 0, [10, 0]⟩ : VecState Nat).len + 3 ∧
     (vector_push_all (⟨2, 1, 4, 0, [10, 0]⟩ : VecState Nat) [20, 30, 40] 3
        GrowOutcome.samePlace).2.1.data.take
         (⟨2, 1, 4, 0, [10, 0]⟩ : VecState Nat).len
       = (⟨2, 1, 4, 0, [10, 0]⟩ : VecState Nat).data.take
           (⟨2, 1, 4, 0, [10, 0]⟩ : VecState Nat).len ∧
     (vector_push_all (⟨2, 1, 4, 0, [10, 0]⟩ : VecState Nat) [20, 30, 40] 3
        GrowOutcome.samePlace).2.1.data.take
         ((⟨2, 1, 4, 0, [10, 0]⟩ : VecState Nat).len + 3)
       = (⟨2, 1, 4, 0, [10, 0]⟩ : VecState Nat).data.take
           (⟨2, 1, 4, 0, [10, 0]⟩ : VecState Nat).len ++ ([20, 30, 40] : List Nat).take 3 ∧
     (push_back_repeated (⟨2, 1, 4, 0, [10, 0]⟩ : VecState Nat)
         (([20, 30, 40] : List Nat).take 3)).len
       = (⟨2, 1, 4, 0, [10, 0]⟩ : VecState Nat).len + 3 ∧
     (push_back_repeated (⟨2, 1, 4, 0, [10, 0]⟩ : VecState Nat)
         (([20, 30, 40] : List Nat).take 3)).data.take
         ((⟨2, 1, 4, 0, [10, 0]⟩ : VecState Nat).len + 3)
       = (⟨2, 1, 4, 0, [10, 0]⟩ : VecState Nat).data.take
           (⟨2, 1, 4, 0, [10, 0]⟩ : VecState Nat).len ++ ([20, 30, 40] : List Nat).take 3) :=
  ⟨⟨by decide, by decide⟩,
   push_all_refines_repeated_push (⟨2, 1, 4, 0, [10, 0]⟩ : VecState Nat)
     [20, 30, 40] 3 (by decide) (by decide)⟩

theorem length_le_capacity_preserved_witness :
    (⟨3, 2, 4, 0, [1, 2, 0]⟩ : VecState Nat).len
      ≤ (⟨3, 2, 4, 0, [1, 2, 0]⟩ : VecState Nat).cap ∧
    ((vector_init Nat 8 2 0 true = some (⟨2, 0, 8, 0, [0, 0]⟩ : VecState Nat) →
       (⟨2, 0, 8, 0, [0, 0]⟩ : VecState Nat).len
         ≤ (⟨2, 0, 8, 0, [0, 0]⟩ : VecState Nat).cap) ∧
     (vector_push_back (⟨3, 2, 4, 0, [1, 2, 0]⟩ : VecState Nat) 7 true).len
       ≤ (vector_push_back (⟨3, 2, 4, 0, [1, 2, 0]⟩ : VecState Nat) 7 true).cap ∧
     (vector_pop_back (⟨3, 2, 4, 0, [1, 2, 0]⟩ : VecState Nat)).2.len
       ≤ (vector_pop_back (⟨3, 2, 4, 0, [1, 2, 0]⟩ : VecState Nat)).2.cap ∧
     (vector_pop_back_out (⟨3, 2, 4, 0, [1, 2, 0]⟩ : VecState Nat)).2.len
       ≤ (vector_pop_back_out (⟨3, 2, 4, 0, [1, 2, 0]⟩ : VecState Nat)).2.cap ∧
     (vector_remove (⟨3, 2, 4, 0, [1, 2, 0]⟩ : VecState Nat) 0).2.len
       ≤ (vector_remove (⟨3, 2, 4, 0, [1, 2, 0]⟩ : VecState Nat) 0).2.cap ∧
     (vector_remove_ordered (⟨3, 2, 4, 0, [1, 2, 0]⟩ : VecState Nat) 0).2.len
       ≤ (vector_remove_ordered (⟨3, 2, 4, 0, [1, 2, 0]⟩ : VecState Nat) 0).2.cap ∧
     (vector_push_all (⟨3, 2, 4, 0, [1, 2, 0]⟩ : VecState Nat) [9, 9] 2
        GrowOutcome.relocated).2.1.len
       ≤ (vector_push_all (⟨3, 2, 4, 0, [1, 2, 0]⟩ : VecState Nat) [9, 9] 2
        GrowOutcome.relocated).2.1.cap ∧
     ((⟨3, 2, 4, 0, [1, 2, 0]⟩ : VecState Nat).len ≤ 2 →
       (vector_resize (⟨3, 2, 4, 0, [1, 2, 0]⟩ : VecState Nat) 2 true).2.len
         ≤ (vector_resize (⟨3, 2, 4, 0, [1, 2, 0]⟩ : VecState Nat) 2 true).2.cap) ∧
     (vector_shrink_to_fit (⟨3, 2, 4, 0, [1, 2, 0]⟩ : VecState Nat) true).2.len
       ≤ (vector_shrink_to_fit (⟨3, 2, 4, 0, [1, 2, 0]⟩ : VecState Nat) true).2.cap ∧
     (vector_normal_copy (⟨3, 2, 4, 0, [1, 2, 0]⟩ : VecState Nat) true).2.len
       ≤ (vector_normal_copy (⟨3, 2, 4, 0, [1, 2, 0]⟩ : VecState Nat) true).2.cap ∧
     (vector_get_len (⟨3, 2, 4, 0, [1, 2, 0]⟩ : VecState Nat)).2.len
       ≤ (vector_get_len (⟨3, 2, 4, 0, [1, 2, 0]⟩ : VecState Nat)).2.cap ∧
     (vector_get_cap (⟨3, 2, 4, 0, [1, 2, 0]⟩ : VecState Nat)).2.len
       ≤ (vector_get_cap (⟨3, 2, 4, 0, [1, 2, 0]⟩ : VecState Nat)).2.cap ∧
     (vector_can_append (⟨3, 2, 4, 0, [1, 2, 0]⟩ : VecState Nat)).2.len
       ≤ (vector_can_append (⟨3, 2, 4, 0, [1, 2, 0]⟩ : VecState Nat)).2.cap ∧
     (1 ≤ (⟨3, 2, 4, 0, [1, 2, 0]⟩ : VecState Nat).cap →
       (vector_set_len (⟨3, 2, 4, 0, [1, 2, 0]⟩ : VecState Nat) 1).2.len
         ≤ (vector_set_len (⟨3, 2, 4, 0, [1, 2, 0]⟩ : VecState Nat) 1).2.cap)) :=
  ⟨by decide,
   length_le_capacity_preserved (⟨3, 2, 4, 0, [1, 2, 0]⟩ : VecState Nat)
     (⟨2, 0, 8, 0, [0, 0]⟩ : VecState Nat) 7 [9, 9] 0 2 2 8 0 1 true
     GrowOutcome.relocated (by decide)⟩

/-- C3: `vector_push_all` is not equivalent to repeated `push_back` when
the grow must relocate the block: on the vector `[10]` (capacity 2) with
source `[20, 30, 40]` and count 3, the call still reports success, but the
length update `hdr->len += count` goes through the header pointer captured
before the reallocation, i.e. into the freed old block, so the surviving
block keeps length 1 (its valid elements stay `[10]`, the copied elements
sit beyond the length) and the caller no longer holds the surviving block —
whereas repeating `push_back` on the same input yields length 4 with valid
elements `[10, 20, 30, 40]`. -/
theorem push_all_relocating_grow_loses_length :
    (vector_push_all (⟨2, 1, 4, 0, [10, 0]⟩ : VecState Nat) [20, 30, 40] 3
       GrowOutcome.relocated).1 = 0 ∧
    (vector_push_all (⟨2, 1, 4, 0, [10, 0]⟩ : VecState Nat) [20, 30, 40] 3
       GrowOutcome.relocated).2.1.len = 1 ∧
    ¬ ((vector_push_all (⟨2, 1, 4, 0, [10, 0]⟩ : VecState Nat) [20, 30, 40] 3
       GrowOutcome.relocated).2.1.len
        = (⟨2, 1, 4, 0, [10, 0]⟩ : VecState Nat).len + 3) ∧
    (vector_push_all (⟨2, 1, 4, 0, [10, 0]⟩ : VecState Nat) [20, 30, 40] 3
       GrowOutcome.relocated).2.1.data.take
      ((vector_push_all (⟨2, 1, 4, 0, [10, 0]⟩ : VecState Nat) [20, 30, 40] 3
        GrowOutcome.relocated).2.1.len) = [10] ∧
    (vector_push_all (⟨2, 1, 4, 0, [10, 0]⟩ : VecState Nat) [20, 30, 40] 3
       GrowOutcome.relocated).2.2 = false ∧
    (push_back_repeated (⟨2, 1, 4, 0, [10, 0]⟩ : VecState Nat)
       (([20, 30, 40] : List Nat).take 3)).len
      = (⟨2, 1, 4, 0, [10, 0]⟩ : VecState Nat).len + 3 ∧
    (push_back_repeated (⟨2, 1, 4, 0, [10, 0]⟩ : VecState Nat)
       (([20, 30, 40] : List Nat).take 3)).data.take
      ((⟨2, 1, 4, 0, [10, 0]⟩ : VecState Nat).len + 3) = [10, 20, 30, 40] := by
  decide

end VailedVector
